import Mathlib

/-!
Verification of the PNT-Integrity assurance checks.

This file gives a shallow embedding of the two source files

  * `pnt_integrity/src/AngleOfArrivalCheck.cpp`
  * `pnt_integrity/src/PositionJumpCheck.cpp`

into Lean 4 and proves the specification claims about them.  C++ `double`
values are modelled as rationals `ℚ`; the C++ `std::map` containers are
modelled as association lists (key order is irrelevant to every property
proved here, and `std::map` guarantees distinct keys, which appears as a
`Nodup` hypothesis where it matters).
-/

namespace PntIntegrity

/-- Modelled from the spec: the `data::AssuranceLevel` enumeration.  Its
header is not part of the sources; spec section 3 says the levels are
"ordered by increasing distrust for aggregation purposes:
Assured < Inconsistent < Unassured; Unavailable is a distinct 'no data'
state", and `setPrnAssuranceLevels` aggregates with `std::max_element`
over the underlying enum values, so the underlying order must be
Unavailable = 0, Assured = 1, Inconsistent = 2, Unassured = 3. -/
inductive AssuranceLevel : Type where
  | Unavailable : AssuranceLevel
  | Assured : AssuranceLevel
  | Inconsistent : AssuranceLevel
  | Unassured : AssuranceLevel
deriving DecidableEq, Repr

/-- Modelled from the spec: the underlying integer value of the
`data::AssuranceLevel` enum, which realises the distrust order of spec
section 3 (see `AssuranceLevel`). -/
def AssuranceLevel.value : AssuranceLevel → ℕ
  | .Unavailable => 0
  | .Assured => 1
  | .Inconsistent => 2
  | .Unassured => 3

/-- One comparison step of `std::max_element` on `AssuranceLevel`
(`operator<` on the underlying enum value): keep the current maximum
unless the next element is strictly larger. -/
def lmax (a b : AssuranceLevel) : AssuranceLevel :=
  if a.value < b.value then b else a

/-- `*std::max_element(l.begin(), l.end())` for a nonempty list `l` of
levels.  Folding from `Unavailable` is exact because
`lmax Unavailable x = x` for every `x` (`Unavailable` has the least
underlying value), so on a nonempty list this equals the fold starting
from the first element, which is what `max_element` computes. -/
def levelMax (l : List AssuranceLevel) : AssuranceLevel :=
  l.foldl lmax .Unavailable

/-! ### Association-map helpers (model of `std::map` access) -/

/-- Lookup with default: the value stored at key `k`, or `d` if absent. -/
def mapGetD {α : Type} : List (ℕ × α) → ℕ → α → α
  | [], _, d => d
  | kv :: rest, k, d => if kv.1 = k then kv.2 else mapGetD rest k d

/-- `m[k] = x` on a `std::map`: replace the value at `k` if present,
otherwise add the binding. -/
def mapInsert {α : Type} : List (ℕ × α) → ℕ → α → List (ℕ × α)
  | [], k, x => [(k, x)]
  | kv :: rest, k, x =>
      if kv.1 = k then (k, x) :: rest else kv :: mapInsert rest k x

/-- `m.find(k)` on a `std::map`: the stored value, if any. -/
def mapFind {α : Type} : List (ℕ × α) → ℕ → Option α
  | [], _ => none
  | kv :: rest, k => if kv.1 = k then some kv.2 else mapFind rest k

/-! ### Per-cycle vote collection -/

/-- `PrnAssuranceEachNode`: PRN to the ordered votes contributed across
all remote nodes in one evaluation cycle. -/
abbrev PrnVotes : Type := List (ℕ × List AssuranceLevel)

/-- `prnAssuranceEachNode[prn].push_back(lvl)`: `operator[]` inserts an
empty vector when the key is absent, then one level is appended. -/
def appendVote (v : PrnVotes) (prn : ℕ) (lvl : AssuranceLevel) : PrnVotes :=
  mapInsert v prn (mapGetD v prn [] ++ [lvl])

/-- Total number of votes stored in a vote map (used to state that the
nested comparison produces exactly one vote per PRN of the map). -/
def totalVotes (v : PrnVotes) : ℕ :=
  (v.map (fun kv => kv.2.length)).sum

/-! ### Configuration of the angle-of-arrival check -/

/-- The AOA data-source mode (`AoaCheckData` enum). -/
inductive AoaCheckData : Type where
  | UsePseudorange : AoaCheckData
  | UseCarrierPhase : AoaCheckData
  | UseBoth : AoaCheckData
deriving DecidableEq, Repr

/-- Configuration fields of `AngleOfArrivalCheck` (thresholds are
`double` members of the class; `prnCountThresh_` is an unsigned
count). -/
structure AoaConfig : Type where
  prnCountThresh : ℕ
  rangeThreshold : ℚ
  singleDiffCompareThresh : ℚ
  singleDiffCompareFailureLimit : ℚ
  assuranceUnassuredThresh : ℚ
  assuranceInconsistentThresh : ℚ
  assuranceAssuredThresh : ℚ
  assuranceLevelPeriod : ℚ
  aoaCheckData : AoaCheckData
  publishSingleDiffData : Bool
  publishDiagnostics : Bool
deriving DecidableEq, Repr

/-- `SingleDiffMap`: PRN to single difference (local minus remote
pseudorange). -/
abbrev SingleDiffMap : Type := List (ℕ × ℚ)

/-! ### `AngleOfArrivalCheck::nestedForLoopComparison` (lines 341-410) -/

/-- The inner comparison loop of `nestedForLoopComparison` for one base
PRN `p` with difference `d`: walk the whole difference map, and for every
entry with a different PRN count it in `totalCount`, also counting it in
`failCount` when the two single differences are closer than
`singleDiffCompareThresh_`.  Returns `(failCount, totalCount)`.  (The C++
inner loop walks the map in reverse; the counts are order independent.) -/
def diffCounts (cfg : AoaConfig) (p : ℕ) (d : ℚ) : SingleDiffMap → ℕ × ℕ
  | [] => (0, 0)
  | qe :: rest =>
      let fc := (diffCounts cfg p d rest).1
      let tc := (diffCounts cfg p d rest).2
      if p ≠ qe.1 then
        if |d - qe.2| < cfg.singleDiffCompareThresh then (fc + 1, tc + 1)
        else (fc, tc + 1)
      else (fc, tc)

/-- Lines 382-408 of `nestedForLoopComparison`: given the already
computed `failPercent = failCount / totalCount` (the division happens at
line 382, before the sufficiency guard; with `totalCount = 0` the C++
double quotient is NaN, and `NaN > limit` is false), classify the base
PRN.  `prnCountThresh - 1` is the truncated natural subtraction, matching
the unsigned C++ arithmetic for every threshold of at least 1. -/
def classifyWithPercent (cfg : AoaConfig) (totalCount : ℕ)
    (failPercent : ℚ) : AssuranceLevel :=
  if totalCount < cfg.prnCountThresh - 1 then .Unavailable
  else if failPercent > cfg.singleDiffCompareFailureLimit then .Unassured
  else .Assured

/-- The vote produced by one iteration of the outer loop of
`nestedForLoopComparison` for the entry `(p, d)` of the difference map. -/
def voteFor (cfg : AoaConfig) (dm : SingleDiffMap) (p : ℕ) (d : ℚ) :
    AssuranceLevel :=
  classifyWithPercent cfg (diffCounts cfg p d dm).2
    (((diffCounts cfg p d dm).1 : ℚ) / ((diffCounts cfg p d dm).2 : ℚ))

/-- `AngleOfArrivalCheck::nestedForLoopComparison`: for each entry of the
single-difference map, append the classification vote for its PRN to the
per-cycle vote map. -/
def nestedForLoopComparison (cfg : AoaConfig) (dm : SingleDiffMap)
    (votes : PrnVotes) : PrnVotes :=
  dm.foldl (fun acc pd => appendVote acc pd.1 (voteFor cfg dm pd.1 pd.2)) votes

/-! ### `AngleOfArrivalCheck::setPrnAssuranceLevels` (lines 415-429) -/

/-- The persisted per-PRN assurance map `prnAssuranceLevels_`. -/
abbrev PrnLevels : Type := List (ℕ × AssuranceLevel)

/-- `AngleOfArrivalCheck::setPrnAssuranceLevels`: for each PRN of the
per-cycle vote map, store the `std::max_element` of its votes in the
persisted per-PRN map. -/
def setPrnAssuranceLevels (votes : PrnVotes) (m : PrnLevels) : PrnLevels :=
  votes.foldl (fun acc kv => mapInsert acc kv.1 (levelMax kv.2)) m

/-! ### `AngleOfArrivalCheck::calculateAssuranceLevel` (lines 434-519) -/

/-- The counting loop at lines 440-460: one pass over the persisted
per-PRN map producing `(totalCount, assuredCount, unavailableCount,
suspectCount)`.  (The C++ loop accumulates in map-iteration order; the
counts are order independent, so recursion over the list is exact.) -/
def levelCounts : PrnLevels → ℕ × ℕ × ℕ × ℕ
  | [] => (0, 0, 0, 0)
  | kv :: rest =>
      let t := (levelCounts rest).1
      let a := (levelCounts rest).2.1
      let u := (levelCounts rest).2.2.1
      let s := (levelCounts rest).2.2.2
      if kv.2 = .Assured then (t + 1, a + 1, u, s)
      else if kv.2 = .Unavailable then (t + 1, a, u + 1, s)
      else (t + 1, a, u, s + 1)

/-- The level chosen by `calculateAssuranceLevel` for a given persisted
per-PRN map.  The double quotients `suspectPercent` and `assuredPercent`
are NaN when `totalCount = 0`, and in C++ every ordered comparison with
NaN is false; the conjunct `totalCount ≠ 0` in each branch encodes
exactly that. -/
def calculateAssuranceLevel (cfg : AoaConfig) (m : PrnLevels) :
    AssuranceLevel :=
  let t := (levelCounts m).1
  let a := (levelCounts m).2.1
  let s := (levelCounts m).2.2.2
  if t < cfg.prnCountThresh - 1 then .Unavailable
  else if t ≠ 0 ∧ (s : ℚ) / (t : ℚ) ≥ cfg.assuranceUnassuredThresh then
    .Unassured
  else if t ≠ 0 ∧ (s : ℚ) / (t : ℚ) ≥ cfg.assuranceInconsistentThresh then
    .Inconsistent
  else if t ≠ 0 ∧ (a : ℚ) / (t : ℚ) > cfg.assuranceAssuredThresh then
    .Assured
  else .Unavailable

/-- The diagnostics record published at the end of
`calculateAssuranceLevel`.  The percentage fields are double quotients
that are NaN when the persisted map is empty; `none` models NaN. -/
structure AoaDiag : Type where
  singleDiffThresh : ℚ
  unavailablePrnPercent : Option ℚ
  suspectPrnPercent : Option ℚ
  assuredPrnPercent : Option ℚ
  inconsistentThresh : ℚ
  unassuredThresh : ℚ
  assuredThresh : ℚ
deriving DecidableEq, Repr

/-- The diagnostics payload built at lines 505-513. -/
def mkAoaDiag (cfg : AoaConfig) (m : PrnLevels) : AoaDiag :=
  let t := (levelCounts m).1
  let pct : ℕ → Option ℚ := fun c => if t = 0 then none else some ((c : ℚ) / (t : ℚ))
  { singleDiffThresh := cfg.singleDiffCompareThresh
    unavailablePrnPercent := pct (levelCounts m).2.2.1
    suspectPrnPercent := pct (levelCounts m).2.2.2
    assuredPrnPercent := pct (levelCounts m).2.1
    inconsistentThresh := cfg.assuranceInconsistentThresh
    unassuredThresh := cfg.assuranceUnassuredThresh
    assuredThresh := cfg.assuranceAssuredThresh }

/-! ### `AngleOfArrivalCheck::checkAngleOfArrival` (lines 108-336) -/

/-- One per-satellite record of `data::GNSSObservableMap` (only the
fields this check reads). -/
structure Observable : Type where
  pseudorange : ℚ
  pseudorangeValid : Bool
  assurance : AssuranceLevel
deriving DecidableEq, Repr

/-- A `data::GNSSObservables` snapshot: device id plus the PRN-keyed
observable map. -/
structure GNSSObservables : Type where
  deviceId : String
  observables : List (ℕ × Observable)
deriving DecidableEq, Repr

/-- `data::MeasuredRange` for one remote node. -/
structure MeasuredRange : Type where
  range : ℚ
  rangeValid : Bool
deriving DecidableEq, Repr

/-- One remote repository entry: the remote observation snapshot (empty
map when `getData` found nothing) and the measured range. -/
structure RemoteEntry : Type where
  obs : GNSSObservables
  range : MeasuredRange
deriving DecidableEq, Repr

/-- The mutable state of `AngleOfArrivalCheck` that this algorithm reads
and writes: the persisted per-PRN map, the time of the last assurance
update, and the current check level. -/
structure AoaState : Type where
  prnAssuranceLevels : PrnLevels
  lastAssuranceUpdate : ℚ
  assuranceLevel : AssuranceLevel
deriving DecidableEq

/-- The seeding step at lines 259-265, run once per processed remote
node: every local observable with a valid pseudorange contributes its
carried assurance level as one vote for its PRN. -/
def seedVotes (localObs : GNSSObservables) (votes : PrnVotes) : PrnVotes :=
  localObs.observables.foldl
    (fun acc po =>
      if po.2.pseudorangeValid then appendVote acc po.1 po.2.assurance
      else acc)
    votes

/-- The range gate at lines 273-274: proceed with the single-difference
computation when the range measurement is invalid, or valid and at least
the range threshold. -/
def rangeGateOpen (cfg : AoaConfig) (range : MeasuredRange) : Prop :=
  range.rangeValid = false ∨
    (cfg.rangeThreshold ≤ range.range ∧ range.rangeValid = true)

instance (cfg : AoaConfig) (range : MeasuredRange) :
    Decidable (rangeGateOpen cfg range) :=
  inferInstanceAs (Decidable (_ ∨ _))

/-- The single-difference map built by the local-observable loop at
lines 251-321 for one remote node: when the range gate is open and the
data mode is `UsePseudorange`, every local PRN with a valid pseudorange
whose remote match also has a valid pseudorange contributes
`local - remote`; the carrier-phase and combined modes log an error and
contribute nothing. -/
def buildSingleDiffMap (cfg : AoaConfig) (localObs : GNSSObservables)
    (entry : RemoteEntry) : SingleDiffMap :=
  if rangeGateOpen cfg entry.range then
    match cfg.aoaCheckData with
    | .UsePseudorange =>
        localObs.observables.filterMap (fun po =>
          match mapFind entry.obs.observables po.1 with
          | some rob =>
              if po.2.pseudorangeValid && rob.pseudorangeValid then
                some (po.1, po.2.pseudorange - rob.pseudorange)
              else none
          | none => none)
    | .UseCarrierPhase => []
    | .UseBoth => []
  else []

/-- The skip condition for one remote node (lines 200-216 and 228-245):
an empty observation snapshot, or a device id equal to the local one. -/
def nodeSkipped (localObs : GNSSObservables) (entry : RemoteEntry) : Prop :=
  entry.obs.observables.length < 1 ∨ entry.obs.deviceId = localObs.deviceId

instance (localObs : GNSSObservables) (entry : RemoteEntry) :
    Decidable (nodeSkipped localObs entry) :=
  inferInstanceAs (Decidable (_ ∨ _))

/-- The fall-through at lines 334-335 after the remote-node loop ends
normally: merge the cycle's votes into the persisted per-PRN map with
`setPrnAssuranceLevels`, run `calculateAssuranceLevel` on the merged map
(which calls `changeAssuranceLevel`, replacing the current level), and
build the diagnostics payload when a sink is configured. -/
def commitLevels (cfg : AoaConfig) (st : AoaState) (votes : PrnVotes) :
    AoaState × Option AoaDiag :=
  let merged := setPrnAssuranceLevels votes st.prnAssuranceLevels
  let lvl := calculateAssuranceLevel cfg merged
  ({ st with prnAssuranceLevels := merged, assuranceLevel := lvl },
   if cfg.publishDiagnostics then some (mkAoaDiag cfg merged) else none)

/-- The full observable outcome of one `checkAngleOfArrival` cycle:
the final check state, the per-cycle vote map `prnAssuranceEachNode`
(exposed so that claims about it can be stated, even on the early-return
paths where the C++ local variable is discarded), the sequence of
published single-difference maps, whether the reduction/classification
step at lines 334-335 ran, and the published aggregate diagnostics. -/
structure AoaOut : Type where
  state : AoaState
  votes : PrnVotes
  diffPubs : List (String × SingleDiffMap)
  classified : Bool
  diag : Option AoaDiag
deriving DecidableEq

/-- The remote-node loop at lines 190-333.  A node whose snapshot is
empty or whose device id matches the local one is skipped; if such a node
is the last one, the function returns immediately (lines 208-214 and
236-242) without running the reduction or the classification.  A usable
node seeds the per-PRN votes from local validity, builds its
single-difference map, optionally publishes it, and runs the nested
comparison.  When the loop walks past the last node the votes are
committed (lines 334-335). -/
def aoaLoop (cfg : AoaConfig) (localObs : GNSSObservables) :
    List (String × RemoteEntry) → AoaState → PrnVotes →
    List (String × SingleDiffMap) → AoaOut
  | [], st, votes, pubs =>
      let c := commitLevels cfg st votes
      ⟨c.1, votes, pubs, true, c.2⟩
  | (nodeId, entry) :: rest, st, votes, pubs =>
      if nodeSkipped localObs entry then
        if rest.isEmpty then ⟨st, votes, pubs, false, none⟩
        else aoaLoop cfg localObs rest st votes pubs
      else
        let votes1 := seedVotes localObs votes
        let dm := buildSingleDiffMap cfg localObs entry
        let pubs1 :=
          if cfg.publishSingleDiffData then pubs ++ [(nodeId, dm)] else pubs
        aoaLoop cfg localObs rest st (nestedForLoopComparison cfg dm votes1)
          pubs1

/-- `AngleOfArrivalCheck::checkAngleOfArrival`: staleness reset of the
persisted per-PRN map, the local-snapshot gates (missing local data, or
fewer local observables than `prnCountThresh_`), the no-remote-entries
gate, and then the remote-node loop. -/
def checkAngleOfArrival (cfg : AoaConfig) (st : AoaState) (checkTime : ℚ)
    (localData : Option GNSSObservables)
    (remotes : List (String × RemoteEntry)) : AoaOut :=
  let st0 :=
    if cfg.assuranceLevelPeriod < checkTime - st.lastAssuranceUpdate then
      { st with prnAssuranceLevels := [] }
    else st
  match localData with
  | none => ⟨st0, [], [], false, none⟩
  | some localObs =>
      if localObs.observables.length < cfg.prnCountThresh then
        ⟨st0, [], [], false, none⟩
      else if remotes.isEmpty then ⟨st0, [], [], false, none⟩
      else aoaLoop cfg localObs remotes st0 [] []

/-! ### `PositionJumpCheck` (PositionJumpCheck.cpp) -/

/-- `data::GeodeticPosition3d`. -/
structure GeodeticPosition : Type where
  latitude : ℚ
  longitude : ℚ
  altitude : ℚ
deriving DecidableEq, Repr

/-- Configuration fields of `PositionJumpCheck`: the two mode booleans,
the bound parameters, and whether a diagnostics sink is wired in. -/
structure PjConfig : Type where
  useDistTraveled : Bool
  useEstimatedPv : Bool
  minimumBound : ℚ
  maximumVelocity : ℚ
  posStdDevMultiplier : ℚ
  publishDiagnostics : Bool
deriving DecidableEq, Repr

/-- The mutable state of `PositionJumpCheck` read and written by the
modelled operations.  `rcvrTime` is the full-seconds timestamp derived
from `lastReceiverPv_.header.timestampValid`; `rcvrCovNN` and `rcvrCovEE`
are `lastReceiverPv_.covariance[0][0]` and `[1][1]`; `estCovNN` and
`estCovEE` are the captured `currentEstPosCovariance_` diagonal terms. -/
structure PjState : Type where
  positionJumpBound : ℚ
  distanceTraveled : ℚ
  distanceTraveledReceived : Bool
  lastKnownGoodSet : Bool
  lastKnownGoodPositionTime : ℚ
  lastKnownGoodPosition : GeodeticPosition
  currentEstPositionSet : Bool
  estCovNN : ℚ
  estCovEE : ℚ
  rcvrTime : ℚ
  rcvrCovNN : ℚ
  rcvrCovEE : ℚ
  rcvrPosition : GeodeticPosition
  assuranceLevel : AssuranceLevel
deriving DecidableEq, Repr

/-- `PositionJumpCheck::updateBound()` (lines 252-267, the
distance-traveled overload).  Returns the new state together with a flag
recording whether the mode-mismatch error was logged: when
`useDistTraveled_` is false the function only logs and changes nothing. -/
def updateBoundDist (cfg : PjConfig) (st : PjState) : PjState × Bool :=
  if cfg.useDistTraveled then
    ({ st with positionJumpBound := max cfg.minimumBound st.distanceTraveled },
     false)
  else (st, true)

/-- `PositionJumpCheck::updateBound(updateTime)` (lines 271-289, the
max-velocity overload).  When `useDistTraveled_` is true the function
only logs the mode-mismatch error and changes nothing. -/
def updateBoundTime (cfg : PjConfig) (st : PjState) (updateTime : ℚ) :
    PjState × Bool :=
  if cfg.useDistTraveled then (st, true)
  else
    let dt := updateTime - st.lastKnownGoodPositionTime
    let b := max cfg.minimumBound (cfg.maximumVelocity * dt)
    ({ st with positionJumpBound := b }, false)

/-- `PositionJumpCheck::setLastGoodPosition` (lines 236-247).  The base
`AssuranceCheck::setLastGoodPosition` is not among the sources; modelled
from the spec: it "atomically records a trusted reference position and
its timestamp" (spec section 4.1).  The derived method then zeroes the
accumulated distance and, in distance-traveled mode, resets the bound to
the minimum. -/
def setLastGoodPosition (cfg : PjConfig) (st : PjState) (updateTime : ℚ)
    (position : GeodeticPosition) : PjState :=
  let st1 := { st with
    lastKnownGoodPosition := position
    lastKnownGoodPositionTime := updateTime
    lastKnownGoodSet := true
    distanceTraveled := 0 }
  if cfg.useDistTraveled then { st1 with positionJumpBound := cfg.minimumBound }
  else st1

/-- Modelled from the spec: `AssuranceCheck::checkDistance` (header not
among the sources).  Spec section 8 fixes the boundary: "a horizontal
jump exactly equal to the bound classifies as Assured (non-strict
threshold)", so the comparison is strict. -/
def checkDistance (dist bound : ℚ) : Prop := bound < dist

instance (dist bound : ℚ) : Decidable (checkDistance dist bound) :=
  inferInstanceAs (Decidable (_ < _))

/-- Diagnostics of `PositionJumpCheck`; `none` models the NaN published
on the unavailable path. -/
structure PjDiag : Type where
  bound : Option ℚ
  distance : Option ℚ
deriving DecidableEq, Repr

/-- The outcome of one `PositionJumpCheck::runCheck` evaluation: the new
state, the boolean return value, and the diagnostics handed to the sink
(if one is configured). -/
structure PjOut : Type where
  state : PjState
  retVal : Bool
  published : Option PjDiag
deriving DecidableEq, Repr

/-- The decision cascade of `PositionJumpCheck::runCheck` (lines
117-230), applied to the state after the platform-mode bound update.
The external collaborators are passed as arguments: `distLastGood` is
the value of `calculateDistance(lastReceiverPv_.position,
lastKnownGoodPosition_)` (a base-class geodetic distance, not among the
sources); `dist` is `sqrt(north^2 + east^2)` for the North-East offset
produced by `geodetic2Ned` (the converter is an out-of-scope
collaborator); `covStd` is `sqrt(estCovNN + estCovEE)` and `rcvrStd` is
`sqrt(rcvrCovNN + rcvrCovEE)`.  Theorems characterise these square
roots by squaring. -/
def pjDecide (cfg : PjConfig) (st1 : PjState)
    (distLastGood dist covStd rcvrStd : ℚ) : PjOut :=
  if cfg.useEstimatedPv = false ∧ st1.lastKnownGoodSet = true ∧
      st1.distanceTraveledReceived = true then
    let lvl : AssuranceLevel :=
      if checkDistance distLastGood st1.positionJumpBound then .Unassured
      else .Assured
    { state := { st1 with assuranceLevel := lvl }
      retVal := true
      published :=
        if cfg.publishDiagnostics then
          some ⟨some st1.positionJumpBound, some distLastGood⟩
        else none }
  else if cfg.useEstimatedPv = true ∧ st1.currentEstPositionSet = true then
    let bound := max cfg.minimumBound (cfg.posStdDevMultiplier * covStd)
    let lvl : AssuranceLevel :=
      if checkDistance dist bound ∧ 30 < rcvrStd then .Inconsistent
      else if checkDistance dist bound then .Unassured
      else .Assured
    { state := { st1 with positionJumpBound := bound, assuranceLevel := lvl }
      retVal := true
      published :=
        if cfg.publishDiagnostics then some ⟨some bound, some dist⟩ else none }
  else
    { state := { st1 with assuranceLevel := .Unavailable }
      retVal := false
      published :=
        if cfg.publishDiagnostics then some ⟨none, none⟩ else none }

/-- `PositionJumpCheck::runCheck`: the platform-mode preamble at lines
108-113 (mark distance-traveled data received, propagate the bound with
the maximum velocity at the receiver timestamp) followed by the decision
cascade `pjDecide` (lines 117-230). -/
def runCheck (cfg : PjConfig) (st : PjState)
    (distLastGood dist covStd rcvrStd : ℚ) : PjOut :=
  let st1 :=
    if cfg.useDistTraveled = false ∧ cfg.useEstimatedPv = false then
      (updateBoundTime cfg { st with distanceTraveledReceived := true }
        st.rcvrTime).1
    else st
  pjDecide cfg st1 distLastGood dist covStd rcvrStd

/-! ### Spec-side definitions

The definitions in this section transcribe the words of the claims (not
the code); the claim theorems compare them with the code-side functions
above. -/

/-- Spec-side fail count for claim C1: the number of entries of the
single-difference map whose PRN differs from the base PRN and whose
difference value is within `singleDiffCompareThresh` of the base one. -/
def failCountSpec (cfg : AoaConfig) (dm : SingleDiffMap) (pd : ℕ × ℚ) : ℕ :=
  (dm.filter (fun qe =>
    decide (pd.1 ≠ qe.1 ∧ |pd.2 - qe.2| < cfg.singleDiffCompareThresh))).length

/-- Spec-side vote of claim C1 for the entry `pd` of a single-difference
map of size `n`: `Unavailable` when `n - 1 < prnCountThresh - 1`,
`Unassured` when `failPercent = failCount / (n - 1)` exceeds the failure
limit, otherwise `Assured`. -/
def c1SpecVote (cfg : AoaConfig) (dm : SingleDiffMap) (pd : ℕ × ℚ) :
    AssuranceLevel :=
  let n := dm.length
  if n - 1 < cfg.prnCountThresh - 1 then .Unavailable
  else if (failCountSpec cfg dm pd : ℚ) / ((n - 1 : ℕ) : ℚ) >
      cfg.singleDiffCompareFailureLimit then .Unassured
  else .Assured

/-- Spec-side classification cascade of claim C2, written on the four
category counts with real (rational) fractions. -/
def aggSpec (cfg : AoaConfig)
    (assuredCount suspectCount totalCount : ℕ) : AssuranceLevel :=
  if totalCount < cfg.prnCountThresh - 1 then .Unavailable
  else if (suspectCount : ℚ) / (totalCount : ℚ) ≥
      cfg.assuranceUnassuredThresh then .Unassured
  else if (suspectCount : ℚ) / (totalCount : ℚ) ≥
      cfg.assuranceInconsistentThresh then .Inconsistent
  else if (assuredCount : ℚ) / (totalCount : ℚ) >
      cfg.assuranceAssuredThresh then .Assured
  else .Unavailable

/-- The number of remote nodes of a cycle that are not skipped by the
empty-snapshot / self-device-id guards (used by claims C4 and C5). -/
def usableCount (localObs : GNSSObservables)
    (remotes : List (String × RemoteEntry)) : ℕ :=
  remotes.countP (fun ne => decide (¬ nodeSkipped localObs ne.2))

/-! ### Lemmas about the association-map helpers -/

theorem mapGetD_insert_self {α : Type} (m : List (ℕ × α)) (k : ℕ) (x d : α) :
    mapGetD (mapInsert m k x) k d = x := by
  induction m with
  | nil => simp [mapGetD, mapInsert]
  | cons kv rest ih =>
      by_cases h : kv.1 = k
      · simp [mapGetD, mapInsert, h]
      · simp [mapGetD, mapInsert, h, ih]

theorem mapGetD_insert_other {α : Type} (m : List (ℕ × α)) (k q : ℕ)
    (x d : α) (hq : q ≠ k) : mapGetD (mapInsert m k x) q d = mapGetD m q d := by
  induction m with
  | nil =>
      simp only [mapInsert, mapGetD]
      rw [if_neg (Ne.symm hq)]
  | cons kv rest ih =>
      by_cases h : kv.1 = k
      · subst h
        simp only [mapInsert, if_pos rfl, mapGetD]
        rw [if_neg (Ne.symm hq), if_neg (Ne.symm hq)]
      · simp only [mapInsert, if_neg h, mapGetD]
        by_cases h2 : kv.1 = q
        · rw [if_pos h2, if_pos h2]
        · rw [if_neg h2, if_neg h2, ih]

theorem mapGetD_appendVote_self (v : PrnVotes) (p : ℕ) (x : AssuranceLevel) :
    mapGetD (appendVote v p x) p [] = mapGetD v p [] ++ [x] :=
  mapGetD_insert_self v p _ []

theorem mapGetD_appendVote_other (v : PrnVotes) (p q : ℕ)
    (x : AssuranceLevel) (hq : q ≠ p) :
    mapGetD (appendVote v p x) q [] = mapGetD v q [] :=
  mapGetD_insert_other v p q _ [] hq

theorem totalVotes_appendVote (v : PrnVotes) (p : ℕ) (x : AssuranceLevel) :
    totalVotes (appendVote v p x) = totalVotes v + 1 := by
  induction v with
  | nil => simp [totalVotes, appendVote, mapInsert, mapGetD]
  | cons kv rest ih =>
      by_cases h : kv.1 = p
      · simp [totalVotes, appendVote, mapInsert, mapGetD, h]
        omega
      · have hih := ih
        simp only [totalVotes, appendVote, mapInsert, mapGetD, if_neg h,
          List.map_cons, List.sum_cons] at hih ⊢
        omega

/-! ### Generic lemmas about vote-appending folds

Both the per-node seeding loop and `nestedForLoopComparison` fold a list
of keyed entries over `appendVote`, the contributed level depending only
on the entry (not on the accumulated votes).  `foldVotes` abstracts this
shape: `f` says whether (and which) level an entry contributes. -/

/-- Abstract vote-appending fold. -/
def foldVotes {β : Type} (f : ℕ × β → Option AssuranceLevel)
    (l : List (ℕ × β)) (v : PrnVotes) : PrnVotes :=
  l.foldl
    (fun acc e =>
      match f e with
      | some x => appendVote acc e.1 x
      | none => acc)
    v

theorem foldVotes_cons {β : Type} (f : ℕ × β → Option AssuranceLevel)
    (e : ℕ × β) (l : List (ℕ × β)) (v : PrnVotes) :
    foldVotes f (e :: l) v =
      foldVotes f l
        (match f e with
         | some x => appendVote v e.1 x
         | none => v) := rfl

theorem foldVotes_get_notin {β : Type} (f : ℕ × β → Option AssuranceLevel)
    (l : List (ℕ × β)) (v : PrnVotes) (p : ℕ)
    (hp : p ∉ l.map Prod.fst) :
    mapGetD (foldVotes f l v) p [] = mapGetD v p [] := by
  induction l generalizing v with
  | nil => rfl
  | cons e rest ih =>
      have hep : e.1 ≠ p := by
        intro h
        exact hp (by simp [List.map_cons, h])
      have hp2 : p ∉ rest.map Prod.fst := by
        intro h
        exact hp (by simp [List.map_cons, h])
      rw [foldVotes_cons]
      cases hf : f e with
      | none => exact ih _ hp2
      | some x =>
          rw [ih _ hp2, mapGetD_appendVote_other _ _ _ _ (Ne.symm hep)]

theorem foldVotes_get_extend {β : Type} (f : ℕ × β → Option AssuranceLevel)
    (l : List (ℕ × β)) (v : PrnVotes) (p : ℕ) :
    ∃ t, mapGetD (foldVotes f l v) p [] = mapGetD v p [] ++ t := by
  induction l generalizing v with
  | nil => exact ⟨[], by simp [foldVotes]⟩
  | cons e rest ih =>
      rw [foldVotes_cons]
      cases hf : f e with
      | none => exact ih _
      | some x =>
          obtain ⟨t, ht⟩ := ih (appendVote v e.1 x)
          by_cases hp : e.1 = p
          · subst hp
            exact ⟨x :: t, by rw [ht, mapGetD_appendVote_self]; simp⟩
          · exact ⟨t, by rwa [mapGetD_appendVote_other _ _ _ _ (Ne.symm hp)] at ht⟩

theorem foldVotes_get_mem {β : Type} (f : ℕ × β → Option AssuranceLevel)
    (l : List (ℕ × β)) (v : PrnVotes)
    (hnd : (l.map Prod.fst).Nodup) :
    ∀ e ∈ l, mapGetD (foldVotes f l v) e.1 [] =
      mapGetD v e.1 [] ++ (f e).toList := by
  induction l generalizing v with
  | nil => intro e he; cases he
  | cons e0 rest ih =>
      have hnotin : e0.1 ∉ rest.map Prod.fst := by
        simpa [List.map_cons] using (List.nodup_cons.mp hnd).1
      have hnd2 : (rest.map Prod.fst).Nodup := (List.nodup_cons.mp hnd).2
      intro e he
      rcases List.mem_cons.mp he with h0 | hr
      · subst h0
        rw [foldVotes_cons]
        cases hf : f e with
        | none =>
            rw [foldVotes_get_notin f rest v e.1 hnotin]
            simp [Option.toList]
        | some x =>
            rw [foldVotes_get_notin f rest _ e.1 hnotin,
              mapGetD_appendVote_self]
            simp [Option.toList]
      · have hne : e.1 ≠ e0.1 := by
          intro h
          exact hnotin (h ▸ List.mem_map.mpr ⟨e, hr, rfl⟩)
        rw [foldVotes_cons]
        cases hf : f e0 with
        | none => exact ih _ hnd2 e hr
        | some x =>
            rw [ih _ hnd2 e hr, mapGetD_appendVote_other _ _ _ _ hne]

theorem totalVotes_foldVotes {β : Type} (f : ℕ × β → Option AssuranceLevel)
    (l : List (ℕ × β)) (v : PrnVotes) :
    totalVotes (foldVotes f l v) =
      totalVotes v + l.countP (fun e => (f e).isSome) := by
  induction l generalizing v with
  | nil => simp [foldVotes]
  | cons e rest ih =>
      rw [foldVotes_cons]
      cases hf : f e with
      | none => rw [ih]; simp [List.countP_cons, hf]
      | some x =>
          rw [ih, totalVotes_appendVote]
          simp [List.countP_cons, hf]
          omega

/-- `nestedForLoopComparison` is the vote-appending fold whose entries
all contribute their classification vote. -/
theorem nested_eq_foldVotes (cfg : AoaConfig) (dm : SingleDiffMap)
    (votes : PrnVotes) :
    nestedForLoopComparison cfg dm votes =
      foldVotes (fun pd => some (voteFor cfg dm pd.1 pd.2)) dm votes := rfl

/-- The seeding loop is the vote-appending fold whose entries contribute
their carried assurance level exactly when the pseudorange is valid. -/
theorem seedFold_eq (l : List (ℕ × Observable)) (votes : PrnVotes) :
    l.foldl
      (fun acc po =>
        if po.2.pseudorangeValid then appendVote acc po.1 po.2.assurance
        else acc)
      votes =
    foldVotes
      (fun po => if po.2.pseudorangeValid then some po.2.assurance else none)
      l votes := by
  induction l generalizing votes with
  | nil => rfl
  | cons po rest ih =>
      rw [List.foldl_cons, foldVotes_cons]
      by_cases h : po.2.pseudorangeValid
      · rw [if_pos h, if_pos h]
        exact ih _
      · rw [if_neg h, if_neg h]
        exact ih _

/-- The seeding loop is the vote-appending fold whose entries contribute
their carried assurance level exactly when the pseudorange is valid. -/
theorem seed_eq_foldVotes (localObs : GNSSObservables) (votes : PrnVotes) :
    seedVotes localObs votes =
      foldVotes
        (fun po => if po.2.pseudorangeValid then some po.2.assurance else none)
        localObs.observables votes :=
  seedFold_eq localObs.observables votes

/-! ### Lemmas about `diffCounts` -/

theorem diffCounts_fst (cfg : AoaConfig) (p : ℕ) (d : ℚ)
    (l : SingleDiffMap) :
    (diffCounts cfg p d l).1 = failCountSpec cfg l (p, d) := by
  induction l with
  | nil => rfl
  | cons qe rest ih =>
      by_cases h1 : p ≠ qe.1
      · by_cases h2 : |d - qe.2| < cfg.singleDiffCompareThresh
        · simp [diffCounts, failCountSpec, List.filter_cons, h1, h2] at ih ⊢
          omega
        · simp [diffCounts, failCountSpec, List.filter_cons, h1, h2] at ih ⊢
          exact ih
      · simp [diffCounts, failCountSpec, List.filter_cons, h1] at ih ⊢
        exact ih

theorem diffCounts_snd_notin (cfg : AoaConfig) (p : ℕ) (d : ℚ)
    (l : SingleDiffMap) (hp : p ∉ l.map Prod.fst) :
    (diffCounts cfg p d l).2 = l.length := by
  induction l with
  | nil => rfl
  | cons qe rest ih =>
      have h1 : p ≠ qe.1 := by
        intro h
        exact hp (by simp [List.map_cons, h])
      have hp2 : p ∉ rest.map Prod.fst := by
        intro h
        exact hp (by simp [List.map_cons, h])
      by_cases h2 : |d - qe.2| < cfg.singleDiffCompareThresh <;>
        simp [diffCounts, h1, h2, ih hp2]

theorem diffCounts_snd_mem (cfg : AoaConfig) (l : SingleDiffMap)
    (hnd : (l.map Prod.fst).Nodup) (p : ℕ) (d : ℚ) (hmem : (p, d) ∈ l) :
    (diffCounts cfg p d l).2 = l.length - 1 := by
  induction l with
  | nil => cases hmem
  | cons qe rest ih =>
      have hnotin : qe.1 ∉ rest.map Prod.fst := by
        simpa [List.map_cons] using (List.nodup_cons.mp hnd).1
      have hnd2 : (rest.map Prod.fst).Nodup := (List.nodup_cons.mp hnd).2
      rcases List.mem_cons.mp hmem with h0 | hr
      · have hp : p = qe.1 := by rw [← h0]
        have hpn : p ∉ List.map Prod.fst rest := by rw [hp]; exact hnotin
        have htc := diffCounts_snd_notin cfg p d rest hpn
        rw [hp] at htc
        simp [diffCounts, hp, htc]
      · have hpk : p ∈ rest.map Prod.fst := List.mem_map.mpr ⟨(p, d), hr, rfl⟩
        have h1 : p ≠ qe.1 := by
          intro h
          exact hnotin (h ▸ hpk)
        have hlen : 1 ≤ rest.length := by
          cases rest with
          | nil => cases hr
          | cons a t => simp
        have htc := ih hnd2 hr
        by_cases h2 : |d - qe.2| < cfg.singleDiffCompareThresh <;>
          simp [diffCounts, h1, h2, htc] <;> omega

/-- On a map with distinct keys, the vote computed by the code for one of
its entries is exactly the vote the claim describes. -/
theorem voteFor_eq_spec (cfg : AoaConfig) (dm : SingleDiffMap)
    (hnd : (dm.map Prod.fst).Nodup) (pd : ℕ × ℚ) (hmem : pd ∈ dm) :
    voteFor cfg dm pd.1 pd.2 = c1SpecVote cfg dm pd := by
  obtain ⟨p, d⟩ := pd
  unfold voteFor c1SpecVote classifyWithPercent
  rw [diffCounts_fst, diffCounts_snd_mem cfg dm hnd p d hmem]

/-! ### Claim C1 -/

/-- C1: for every single-difference map with distinct PRN keys (the C++
container is a `std::map`), `nestedForLoopComparison` appends exactly
one vote for each PRN of the map — `Unavailable` when
`n - 1 < prnCountThresh - 1`, `Unassured` when
`failPercent = failCount / (n - 1)` exceeds the failure limit where
`failCount` counts the other PRNs whose difference is within
`singleDiffCompareThresh` of this one's (a PRN is never compared with
itself), and `Assured` otherwise — leaves PRNs outside the map
untouched, and grows the total vote count by exactly `n`. -/
theorem c1_nested_comparison (cfg : AoaConfig) (dm : SingleDiffMap)
    (votes : PrnVotes) (hnd : (dm.map Prod.fst).Nodup) :
    (∀ pd ∈ dm,
      mapGetD (nestedForLoopComparison cfg dm votes) pd.1 [] =
        mapGetD votes pd.1 [] ++ [c1SpecVote cfg dm pd])
    ∧ (∀ p, p ∉ dm.map Prod.fst →
        mapGetD (nestedForLoopComparison cfg dm votes) p [] =
          mapGetD votes p [])
    ∧ totalVotes (nestedForLoopComparison cfg dm votes) =
        totalVotes votes + dm.length := by
  refine ⟨?_, ?_, ?_⟩
  · intro pd hmem
    rw [nested_eq_foldVotes,
      foldVotes_get_mem _ dm votes hnd pd hmem,
      voteFor_eq_spec cfg dm hnd pd hmem]
    rfl
  · intro p hp
    rw [nested_eq_foldVotes, foldVotes_get_notin _ _ _ _ hp]
  · rw [nested_eq_foldVotes, totalVotes_foldVotes]
    congr 1
    exact List.countP_eq_length.mpr (fun e _ => rfl)

/-- Witness for C1: a concrete two-PRN map with distinct keys; the vote
appended for PRN 1 is exactly the spec-side vote. -/
theorem c1_nested_comparison_witness :
    (([((1 : ℕ), (0 : ℚ)), (2, 10)].map Prod.fst).Nodup) ∧
    mapGetD
      (nestedForLoopComparison
        ⟨2, 0, 5, 1/2, 1/2, 1/4, 1/2, 100, .UsePseudorange, false, true⟩
        [((1 : ℕ), (0 : ℚ)), (2, 10)] [])
      1 [] =
      mapGetD [] 1 [] ++
        [c1SpecVote
          ⟨2, 0, 5, 1/2, 1/2, 1/4, 1/2, 100, .UsePseudorange, false, true⟩
          [((1 : ℕ), (0 : ℚ)), (2, 10)] (1, 0)] :=
  ⟨by decide,
   (c1_nested_comparison
      ⟨2, 0, 5, 1/2, 1/2, 1/4, 1/2, 100, .UsePseudorange, false, true⟩
      [((1 : ℕ), (0 : ℚ)), (2, 10)] [] (by decide)).1 (1, 0) (by decide)⟩

/-! ### Claim C10 -/

/-- C10: in `nestedForLoopComparison` the quotient
`failPercent = failCount / totalCount` is formed (line 382) before the
sufficiency guard (line 391); for a singleton single-difference map the
base PRN is never compared (so `totalCount = 0` and the C++ division is
an unguarded 0/0), yet for every configuration with
`prnCountThresh ≥ 2` the guard fires first and the lone PRN receives an
`Unavailable` vote — `classifyWithPercent` with `totalCount = 0` returns
`Unavailable` for every conceivable value of the quotient, so the
division's result never determines the vote. -/
theorem c10_singleton_unavailable (cfg : AoaConfig)
    (h2 : 2 ≤ cfg.prnCountThresh) (p : ℕ) (d : ℚ) (votes : PrnVotes) :
    mapGetD (nestedForLoopComparison cfg [(p, d)] votes) p [] =
      mapGetD votes p [] ++ [.Unavailable]
    ∧ (diffCounts cfg p d [(p, d)]).2 = 0
    ∧ ∀ fp : ℚ, classifyWithPercent cfg 0 fp = .Unavailable := by
  have hguard : 0 < cfg.prnCountThresh - 1 := by omega
  have hclass : ∀ fp : ℚ, classifyWithPercent cfg 0 fp = .Unavailable := by
    intro fp
    unfold classifyWithPercent
    rw [if_pos hguard]
  have hcnt : (diffCounts cfg p d [(p, d)]).2 = 0 := by
    simp [diffCounts]
  refine ⟨?_, hcnt, hclass⟩
  have h := (c1_nested_comparison cfg [(p, d)] votes (by simp)).1 (p, d)
    (by simp)
  rw [h]
  have : c1SpecVote cfg [(p, d)] (p, d) = .Unavailable := by
    unfold c1SpecVote
    simp only [List.length_singleton]
    rw [if_pos (by omega)]
  rw [this]

/-- Witness for C10: a concrete configuration with `prnCountThresh = 3`
and a singleton map. -/
theorem c10_singleton_unavailable_witness :
    mapGetD
      (nestedForLoopComparison
        ⟨3, 0, 5, 1/2, 1/2, 1/4, 1/2, 100, .UsePseudorange, false, true⟩
        [((7 : ℕ), (42 : ℚ))] [])
      7 [] = mapGetD [] 7 [] ++ [.Unavailable] :=
  (c10_singleton_unavailable
    ⟨3, 0, 5, 1/2, 1/2, 1/4, 1/2, 100, .UsePseudorange, false, true⟩
    (by decide) 7 42 []).1

/-! ### Claim C2 -/

theorem levelCounts_length (m : PrnLevels) : (levelCounts m).1 = m.length := by
  induction m with
  | nil => rfl
  | cons kv rest ih =>
      by_cases h1 : kv.2 = AssuranceLevel.Assured
      · simp [levelCounts, h1, ih]
      · by_cases h2 : kv.2 = AssuranceLevel.Unavailable <;>
          simp [levelCounts, h1, h2, ih]

theorem levelCounts_assured (m : PrnLevels) :
    (levelCounts m).2.1 =
      m.countP (fun kv => decide (kv.2 = AssuranceLevel.Assured)) := by
  induction m with
  | nil => rfl
  | cons kv rest ih =>
      by_cases h1 : kv.2 = AssuranceLevel.Assured
      · simp [levelCounts, List.countP_cons, h1, ih]
      · by_cases h2 : kv.2 = AssuranceLevel.Unavailable <;>
          simp [levelCounts, List.countP_cons, h1, h2, ih]

theorem levelCounts_suspect (m : PrnLevels) :
    (levelCounts m).2.2.2 =
      m.countP (fun kv =>
        decide (kv.2 ≠ AssuranceLevel.Assured ∧
          kv.2 ≠ AssuranceLevel.Unavailable)) := by
  induction m with
  | nil => rfl
  | cons kv rest ih =>
      by_cases h1 : kv.2 = AssuranceLevel.Assured
      · simp [levelCounts, List.countP_cons, h1, ih]
      · by_cases h2 : kv.2 = AssuranceLevel.Unavailable <;>
          simp [levelCounts, List.countP_cons, h1, h2, ih]

/-- C2: `calculateAssuranceLevel` classifies each PRN of the persisted
map as assured, unavailable, or suspect (anything else), and picks the
check level by the first matching rule of the claim's cascade, computed
with real fractions over those counts; and the level set by a committed
cycle is exactly this classification of the merged persistent map (the
current cycle's votes folded into the accumulated map), not of the
cycle's votes alone.  The hypothesis excludes only the degenerate corner
(empty persisted map together with `prnCountThresh ≤ 1`) where the C++
code compares NaN and the claim's real fractions are undefined. -/
theorem c2_calculate_assurance_level (cfg : AoaConfig) (st : AoaState)
    (votes : PrnVotes) (m : PrnLevels)
    (h : m ≠ [] ∨ 2 ≤ cfg.prnCountThresh) :
    calculateAssuranceLevel cfg m =
      aggSpec cfg
        (m.countP (fun kv => decide (kv.2 = AssuranceLevel.Assured)))
        (m.countP (fun kv =>
          decide (kv.2 ≠ AssuranceLevel.Assured ∧
            kv.2 ≠ AssuranceLevel.Unavailable)))
        m.length
    ∧ (commitLevels cfg st votes).1.assuranceLevel =
        calculateAssuranceLevel cfg
          (setPrnAssuranceLevels votes st.prnAssuranceLevels) := by
  constructor
  · unfold calculateAssuranceLevel aggSpec
    rw [levelCounts_length, levelCounts_assured, levelCounts_suspect]
    rcases h with hne | h2
    · have ht : ¬ m.length = 0 := by
        simpa [List.length_eq_zero] using hne
      simp [ht]
    · by_cases hlen : m.length = 0
      · rw [hlen, if_pos (by omega), if_pos (by omega)]
      · simp [hlen]
  · rfl

/-- Witness for C2: one assured PRN in the persisted map with
`prnCountThresh = 2`: total = 1 is not below `prnCountThresh - 1 = 1`,
no suspects, and the assured fraction 1 exceeds the 1/2 threshold. -/
theorem c2_calculate_assurance_level_witness :
    (([((4 : ℕ), AssuranceLevel.Assured)] : PrnLevels) ≠ [] ∨
      2 ≤ (2 : ℕ)) ∧
    calculateAssuranceLevel
      ⟨2, 0, 5, 1/2, 1/2, 1/4, 1/2, 100, .UsePseudorange, false, true⟩
      [((4 : ℕ), AssuranceLevel.Assured)] =
      aggSpec ⟨2, 0, 5, 1/2, 1/2, 1/4, 1/2, 100, .UsePseudorange, false, true⟩
        (([((4 : ℕ), AssuranceLevel.Assured)] : PrnLevels).countP
          (fun kv => decide (kv.2 = AssuranceLevel.Assured)))
        (([((4 : ℕ), AssuranceLevel.Assured)] : PrnLevels).countP
          (fun kv =>
            decide (kv.2 ≠ AssuranceLevel.Assured ∧
              kv.2 ≠ AssuranceLevel.Unavailable)))
        ([((4 : ℕ), AssuranceLevel.Assured)] : PrnLevels).length :=
  ⟨Or.inl (by decide),
   (c2_calculate_assurance_level
      ⟨2, 0, 5, 1/2, 1/2, 1/4, 1/2, 100, .UsePseudorange, false, true⟩
      ⟨[], 0, .Unavailable⟩ [] [((4 : ℕ), AssuranceLevel.Assured)]
      (Or.inl (by decide))).1⟩

/-! ### Claim C3 -/

theorem foldl_lmax_le (l : List AssuranceLevel) (a : AssuranceLevel) :
    a.value ≤ (l.foldl lmax a).value ∧
      ∀ x ∈ l, x.value ≤ (l.foldl lmax a).value := by
  induction l generalizing a with
  | nil => simp
  | cons b t ih =>
      rw [List.foldl_cons]
      have hab : a.value ≤ (lmax a b).value := by
        unfold lmax; split <;> omega
      have hbb : b.value ≤ (lmax a b).value := by
        unfold lmax; split <;> omega
      obtain ⟨h1, h2⟩ := ih (lmax a b)
      refine ⟨le_trans hab h1, ?_⟩
      intro x hx
      rcases List.mem_cons.mp hx with rfl | hxt
      · exact le_trans hbb h1
      · exact h2 x hxt

theorem foldl_lmax_mem (l : List AssuranceLevel) (a : AssuranceLevel) :
    l.foldl lmax a = a ∨ l.foldl lmax a ∈ l := by
  induction l generalizing a with
  | nil => exact Or.inl rfl
  | cons b t ih =>
      rw [List.foldl_cons]
      rcases ih (lmax a b) with h | h
      · rw [h]
        unfold lmax
        split
        · exact Or.inr (List.mem_cons_self b t)
        · exact Or.inl rfl
      · exact Or.inr (List.mem_cons_of_mem b h)

theorem levelMax_mem (l : List AssuranceLevel) (hl : l ≠ []) :
    levelMax l ∈ l := by
  unfold levelMax
  rcases foldl_lmax_mem l .Unavailable with h | h
  · obtain ⟨x, hx⟩ : ∃ x, x ∈ l := by
      cases l with
      | nil => exact absurd rfl hl
      | cons a t => exact ⟨a, List.mem_cons_self a t⟩
    have hle := (foldl_lmax_le l .Unavailable).2 x hx
    rw [h] at hle ⊢
    cases x with
    | Unavailable => exact hx
    | Assured => simp [AssuranceLevel.value] at hle
    | Inconsistent => simp [AssuranceLevel.value] at hle
    | Unassured => simp [AssuranceLevel.value] at hle
  · exact h

theorem levelMax_ge (l : List AssuranceLevel) :
    ∀ x ∈ l, x.value ≤ (levelMax l).value :=
  (foldl_lmax_le l .Unavailable).2

theorem levelMax_unassured (l : List AssuranceLevel)
    (h : AssuranceLevel.Unassured ∈ l) : levelMax l = .Unassured := by
  have h3 := levelMax_ge l .Unassured h
  cases hm : levelMax l with
  | Unassured => rfl
  | Unavailable => rw [hm] at h3; simp [AssuranceLevel.value] at h3
  | Assured => rw [hm] at h3; simp [AssuranceLevel.value] at h3
  | Inconsistent => rw [hm] at h3; simp [AssuranceLevel.value] at h3

theorem foldl_mapInsert_get_notin {α β : Type} (f : ℕ × β → α)
    (l : List (ℕ × β)) (m : List (ℕ × α)) (d : α) (p : ℕ)
    (hp : p ∉ l.map Prod.fst) :
    mapGetD (l.foldl (fun acc e => mapInsert acc e.1 (f e)) m) p d =
      mapGetD m p d := by
  induction l generalizing m with
  | nil => rfl
  | cons e rest ih =>
      have hep : e.1 ≠ p := by
        intro h
        exact hp (by simp [List.map_cons, h])
      have hp2 : p ∉ rest.map Prod.fst := by
        intro h
        exact hp (by simp [List.map_cons, h])
      rw [List.foldl_cons, ih _ hp2,
        mapGetD_insert_other _ _ _ _ _ (Ne.symm hep)]

theorem foldl_mapInsert_get {α β : Type} (f : ℕ × β → α)
    (l : List (ℕ × β)) (m : List (ℕ × α)) (d : α)
    (hnd : (l.map Prod.fst).Nodup) :
    ∀ e ∈ l,
      mapGetD (l.foldl (fun acc e => mapInsert acc e.1 (f e)) m) e.1 d =
        f e := by
  induction l generalizing m with
  | nil => intro e he; cases he
  | cons e0 rest ih =>
      have hnotin : e0.1 ∉ rest.map Prod.fst := by
        simpa [List.map_cons] using (List.nodup_cons.mp hnd).1
      have hnd2 : (rest.map Prod.fst).Nodup := (List.nodup_cons.mp hnd).2
      intro e he
      rcases List.mem_cons.mp he with h0 | hr
      · subst h0
        rw [List.foldl_cons,
          foldl_mapInsert_get_notin f rest _ d e.1 hnotin,
          mapGetD_insert_self]
      · rw [List.foldl_cons]
        exact ih _ hnd2 e hr

/-- C3: for every PRN with a nonempty vote list (every PRN that received
at least one vote this cycle), `setPrnAssuranceLevels` stores one of its
votes, that vote has the maximum distrust value among all the votes, and
in particular a single `Unassured` vote forces the reduced level to
`Unassured`. -/
theorem c3_per_prn_reduction (votes : PrnVotes) (m : PrnLevels)
    (hnd : (votes.map Prod.fst).Nodup) :
    ∀ pv ∈ votes, pv.2 ≠ [] →
      mapGetD (setPrnAssuranceLevels votes m) pv.1 .Unavailable ∈ pv.2
      ∧ (∀ x ∈ pv.2,
          x.value ≤
            (mapGetD (setPrnAssuranceLevels votes m) pv.1 .Unavailable).value)
      ∧ (AssuranceLevel.Unassured ∈ pv.2 →
          mapGetD (setPrnAssuranceLevels votes m) pv.1 .Unavailable =
            .Unassured) := by
  intro pv hmem hne
  have hget :
      mapGetD (setPrnAssuranceLevels votes m) pv.1 .Unavailable =
        levelMax pv.2 :=
    foldl_mapInsert_get (fun kv => levelMax kv.2) votes m _ hnd pv hmem
  rw [hget]
  exact ⟨levelMax_mem pv.2 hne, levelMax_ge pv.2,
    fun hu => levelMax_unassured pv.2 hu⟩

/-- Witness for C3: PRN 5 voted `Assured` by one node and `Unassured` by
another; the reduced level is `Unassured`. -/
theorem c3_per_prn_reduction_witness :
    (([((5 : ℕ), [AssuranceLevel.Assured, AssuranceLevel.Unassured])] :
        PrnVotes).map Prod.fst).Nodup ∧
    mapGetD
      (setPrnAssuranceLevels
        [((5 : ℕ), [AssuranceLevel.Assured, AssuranceLevel.Unassured])] [])
      5 .Unavailable = .Unassured :=
  ⟨by decide,
   ((c3_per_prn_reduction
      [((5 : ℕ), [AssuranceLevel.Assured, AssuranceLevel.Unassured])] []
      (by decide)) (5, [AssuranceLevel.Assured, AssuranceLevel.Unassured])
      (by decide) (by decide)).2.2 (by decide)⟩

/-! ### Unfolding lemmas for the remote-node loop -/

theorem aoaLoop_nil (cfg : AoaConfig) (localObs : GNSSObservables)
    (st : AoaState) (votes : PrnVotes)
    (pubs : List (String × SingleDiffMap)) :
    aoaLoop cfg localObs [] st votes pubs =
      ⟨(commitLevels cfg st votes).1, votes, pubs, true,
        (commitLevels cfg st votes).2⟩ := rfl

theorem aoaLoop_cons_skip (cfg : AoaConfig) (localObs : GNSSObservables)
    (nodeId : String) (entry : RemoteEntry)
    (rest : List (String × RemoteEntry)) (st : AoaState) (votes : PrnVotes)
    (pubs : List (String × SingleDiffMap))
    (hskip : nodeSkipped localObs entry) :
    aoaLoop cfg localObs ((nodeId, entry) :: rest) st votes pubs =
      if rest.isEmpty then ⟨st, votes, pubs, false, none⟩
      else aoaLoop cfg localObs rest st votes pubs := by
  simp [aoaLoop, hskip]

theorem aoaLoop_cons_usable (cfg : AoaConfig) (localObs : GNSSObservables)
    (nodeId : String) (entry : RemoteEntry)
    (rest : List (String × RemoteEntry)) (st : AoaState) (votes : PrnVotes)
    (pubs : List (String × SingleDiffMap))
    (hskip : ¬ nodeSkipped localObs entry) :
    aoaLoop cfg localObs ((nodeId, entry) :: rest) st votes pubs =
      aoaLoop cfg localObs rest st
        (nestedForLoopComparison cfg (buildSingleDiffMap cfg localObs entry)
          (seedVotes localObs votes))
        (if cfg.publishSingleDiffData then
          pubs ++ [(nodeId, buildSingleDiffMap cfg localObs entry)]
         else pubs) := by
  simp [aoaLoop, hskip]

/-- Seeding under distinct local keys: a locally valid PRN gets exactly
its carried assurance level appended. -/
theorem seed_get_valid (localObs : GNSSObservables) (v : PrnVotes)
    (hnd : (localObs.observables.map Prod.fst).Nodup) :
    ∀ po ∈ localObs.observables, po.2.pseudorangeValid = true →
      mapGetD (seedVotes localObs v) po.1 [] =
        mapGetD v po.1 [] ++ [po.2.assurance] := by
  intro po hpo hv
  rw [seed_eq_foldVotes, foldVotes_get_mem _ _ _ hnd po hpo]
  simp [hv]

/-- The nested comparison only ever appends to a PRN's vote list. -/
theorem nested_get_extend (cfg : AoaConfig) (dm : SingleDiffMap)
    (v : PrnVotes) (p : ℕ) :
    ∃ t, mapGetD (nestedForLoopComparison cfg dm v) p [] =
      mapGetD v p [] ++ t := by
  rw [nested_eq_foldVotes]
  exact foldVotes_get_extend _ _ _ _

/-! ### Claim C4 -/

/-- C4 is `corrected`; this is the amended statement.  The seeding of
per-PRN votes from purely local validity happens once per remote node
that is **not** skipped; a node skipped for an empty snapshot or a
matching device id contributes no seeding at all.  Hence each locally
valid PRN collects at least one vote per usable remote node, and when
every remote node of the cycle is skipped the vote map stays exactly as
it was (empty at the start of a cycle), so a locally valid PRN can end
the cycle with no vote. -/
theorem c4_seeding_per_usable_node (cfg : AoaConfig)
    (localObs : GNSSObservables)
    (hnd : (localObs.observables.map Prod.fst).Nodup) :
    ∀ (remotes : List (String × RemoteEntry)) (st : AoaState)
      (votes : PrnVotes) (pubs : List (String × SingleDiffMap)),
      (∀ po ∈ localObs.observables, po.2.pseudorangeValid = true →
        (mapGetD votes po.1 []).length + usableCount localObs remotes ≤
          (mapGetD (aoaLoop cfg localObs remotes st votes pubs).votes
            po.1 []).length)
      ∧ (usableCount localObs remotes = 0 →
          (aoaLoop cfg localObs remotes st votes pubs).votes = votes) := by
  intro remotes
  induction remotes with
  | nil =>
      intro st votes pubs
      refine ⟨?_, fun _ => rfl⟩
      intro po hpo hv
      simp [aoaLoop_nil, usableCount]
  | cons ne rest ih =>
      intro st votes pubs
      obtain ⟨nodeId, entry⟩ := ne
      by_cases hskip : nodeSkipped localObs entry
      · have hcount : usableCount localObs ((nodeId, entry) :: rest) =
            usableCount localObs rest := by
          simp [usableCount, List.countP_cons, hskip]
        rw [aoaLoop_cons_skip cfg localObs nodeId entry rest st votes pubs
          hskip]
        by_cases hrest : rest.isEmpty
        · have hr0 : usableCount localObs rest = 0 := by
            cases rest with
            | nil => rfl
            | cons a t => simp at hrest
          rw [if_pos hrest]
          exact ⟨fun po hpo hv => by simp [hcount, hr0], fun _ => rfl⟩
        · rw [if_neg hrest, hcount]
          exact ih st votes pubs
      · have hcount : usableCount localObs ((nodeId, entry) :: rest) =
            usableCount localObs rest + 1 := by
          simp [usableCount, List.countP_cons, hskip]
        rw [aoaLoop_cons_usable cfg localObs nodeId entry rest st votes pubs
          hskip, hcount]
        constructor
        · intro po hpo hv
          have hseed := seed_get_valid localObs votes hnd po hpo hv
          obtain ⟨t, ht⟩ := nested_get_extend cfg
            (buildSingleDiffMap cfg localObs entry)
            (seedVotes localObs votes) po.1
          have hih := (ih st
            (nestedForLoopComparison cfg
              (buildSingleDiffMap cfg localObs entry)
              (seedVotes localObs votes))
            (if cfg.publishSingleDiffData then
              pubs ++ [(nodeId, buildSingleDiffMap cfg localObs entry)]
             else pubs)).1 po hpo hv
          have hlen : (mapGetD votes po.1 []).length + 1 ≤
              (mapGetD
                (nestedForLoopComparison cfg
                  (buildSingleDiffMap cfg localObs entry)
                  (seedVotes localObs votes)) po.1 []).length := by
            rw [ht, hseed]
            simp
          omega
        · intro h0
          omega

/-- Counterexample for C4 as stated: locally PRN 1 is valid (and the
local snapshot passes the `prnCountThresh` gate), the only remote node
is skipped for an empty snapshot — and the cycle's per-PRN vote map
stays empty, so the locally valid PRN has no vote at all, where the
claim promises at least one. -/
theorem c4_counterexample :
    mapGetD
      (checkAngleOfArrival
        ⟨1, 0, 5, 1/2, 1/2, 1/4, 1/2, 100, .UsePseudorange, false, true⟩
        ⟨[], 0, .Unavailable⟩ 0
        (some ⟨"A", [(1, ⟨100, true, .Assured⟩)]⟩)
        [("B", ⟨⟨"B", []⟩, ⟨0, false⟩⟩)]).votes 1 [] = [] := by decide

/-- Witness for the amended C4: local PRNs 1 and 2 valid, one usable
remote node and one skipped remote node; each valid PRN has at least one
vote, in fact one per usable node. -/
theorem c4_seeding_witness :
    ((([(1, ⟨100, true, .Assured⟩), (2, ⟨200, true, .Assured⟩)] :
        List (ℕ × Observable)).map Prod.fst).Nodup) ∧
    1 ≤ (mapGetD
      (aoaLoop ⟨2, 0, 5, 1/2, 1/2, 1/4, 1/2, 100, .UsePseudorange, false, true⟩
        ⟨"A", [(1, ⟨100, true, .Assured⟩), (2, ⟨200, true, .Assured⟩)]⟩
        [("B", ⟨⟨"B", [(1, ⟨100, true, .Assured⟩)]⟩, ⟨0, false⟩⟩),
         ("C", ⟨⟨"C", []⟩, ⟨0, false⟩⟩)]
        ⟨[], 0, .Unavailable⟩ [] []).votes 1 []).length := by
  refine ⟨by decide, ?_⟩
  have h := (c4_seeding_per_usable_node
    ⟨2, 0, 5, 1/2, 1/2, 1/4, 1/2, 100, .UsePseudorange, false, true⟩
    ⟨"A", [(1, ⟨100, true, .Assured⟩), (2, ⟨200, true, .Assured⟩)]⟩
    (by decide)
    [("B", ⟨⟨"B", [(1, ⟨100, true, .Assured⟩)]⟩, ⟨0, false⟩⟩),
     ("C", ⟨⟨"C", []⟩, ⟨0, false⟩⟩)]
    ⟨[], 0, .Unavailable⟩ [] []).1 (1, ⟨100, true, .Assured⟩)
    (by decide) (by decide)
  have hc : usableCount
      ⟨"A", [(1, ⟨100, true, .Assured⟩), (2, ⟨200, true, .Assured⟩)]⟩
      [("B", ⟨⟨"B", [(1, ⟨100, true, .Assured⟩)]⟩, ⟨0, false⟩⟩),
       ("C", ⟨⟨"C", []⟩, ⟨0, false⟩⟩)] = 1 := by decide
  rw [hc] at h
  simpa using h

/-! ### Claim C5 -/

/-- C5 is `corrected`; this is the amended statement.  A skipped remote
node (empty snapshot or matching device id) short-circuits only that
node's processing *when further nodes remain*, and the check state is
never touched while nodes are being processed; but the per-PRN reduction
and aggregate classification run exactly when the **last** remote node in
iteration order is not skipped.  Whenever the last node is skipped the
cycle returns immediately — leaving the level and the persisted per-PRN
map at their prior values and publishing no aggregate diagnostics — even
if earlier usable nodes produced votes.  When the last node is usable,
the final state and diagnostics are precisely the commit
(`setPrnAssuranceLevels` followed by `calculateAssuranceLevel`) of the
votes collected from all usable nodes. -/
theorem c5_last_node_gates_classification (cfg : AoaConfig)
    (localObs : GNSSObservables) :
    ∀ (remotes : List (String × RemoteEntry)) (st : AoaState)
      (votes : PrnVotes) (pubs : List (String × SingleDiffMap))
      (lastNode : String × RemoteEntry),
      remotes.getLast? = some lastNode →
      (nodeSkipped localObs lastNode.2 →
        (aoaLoop cfg localObs remotes st votes pubs).state = st ∧
        (aoaLoop cfg localObs remotes st votes pubs).classified = false ∧
        (aoaLoop cfg localObs remotes st votes pubs).diag = none)
      ∧ (¬ nodeSkipped localObs lastNode.2 →
        (aoaLoop cfg localObs remotes st votes pubs).classified = true ∧
        (aoaLoop cfg localObs remotes st votes pubs).state =
          (commitLevels cfg st
            (aoaLoop cfg localObs remotes st votes pubs).votes).1 ∧
        (aoaLoop cfg localObs remotes st votes pubs).diag =
          (commitLevels cfg st
            (aoaLoop cfg localObs remotes st votes pubs).votes).2) := by
  intro remotes
  induction remotes with
  | nil =>
      intro st votes pubs lastNode h
      simp at h
  | cons ne rest ih =>
      intro st votes pubs lastNode hlast
      obtain ⟨nodeId, entry⟩ := ne
      cases rest with
      | nil =>
          have heq : lastNode = (nodeId, entry) := by
            simp at hlast
            exact hlast.symm
          subst heq
          by_cases hskip : nodeSkipped localObs entry
          · rw [aoaLoop_cons_skip _ _ _ _ _ _ _ _ hskip]
            exact ⟨fun _ => by simp, fun hn => absurd hskip hn⟩
          · rw [aoaLoop_cons_usable _ _ _ _ _ _ _ _ hskip, aoaLoop_nil]
            exact ⟨fun hs => absurd hs hskip, fun _ => ⟨rfl, rfl, rfl⟩⟩
      | cons r t =>
          have hlast2 : (r :: t).getLast? = some lastNode := by
            rw [← hlast, List.getLast?_cons_cons]
          by_cases hskip : nodeSkipped localObs entry
          · rw [aoaLoop_cons_skip _ _ _ _ _ _ _ _ hskip]
            simp only [List.isEmpty_cons, if_false, Bool.false_eq_true,
              if_neg]
            exact ih st votes pubs lastNode hlast2
          · rw [aoaLoop_cons_usable _ _ _ _ _ _ _ _ hskip]
            exact ih st _ _ lastNode hlast2

/-- Counterexample for C5 as stated: remote node B is usable and
produces `Unassured` votes for both local PRNs (identical pseudoranges
give zero single differences, all pairwise spreads under the threshold),
remote node C — the last node — has an empty snapshot.  The claim says
the reduction and classification still run over the collected votes
(which would set the level to `Unassured` and publish diagnostics, as the
final conjunct shows); the code instead returns early: nothing is
classified, the level stays at its prior `Unavailable`, the persisted map
stays empty, and no diagnostics are published. -/
theorem c5_counterexample :
    (checkAngleOfArrival
      ⟨2, 0, 5, 1/2, 1/2, 1/4, 1/2, 100, .UsePseudorange, false, true⟩
      ⟨[], 0, .Unavailable⟩ 0
      (some ⟨"A", [(1, ⟨100, true, .Assured⟩), (2, ⟨200, true, .Assured⟩)]⟩)
      [("B", ⟨⟨"B", [(1, ⟨100, true, .Assured⟩), (2, ⟨200, true, .Assured⟩)]⟩,
          ⟨0, false⟩⟩),
       ("C", ⟨⟨"C", []⟩, ⟨0, false⟩⟩)]).classified = false
    ∧ (checkAngleOfArrival
      ⟨2, 0, 5, 1/2, 1/2, 1/4, 1/2, 100, .UsePseudorange, false, true⟩
      ⟨[], 0, .Unavailable⟩ 0
      (some ⟨"A", [(1, ⟨100, true, .Assured⟩), (2, ⟨200, true, .Assured⟩)]⟩)
      [("B", ⟨⟨"B", [(1, ⟨100, true, .Assured⟩), (2, ⟨200, true, .Assured⟩)]⟩,
          ⟨0, false⟩⟩),
       ("C", ⟨⟨"C", []⟩, ⟨0, false⟩⟩)]).state.assuranceLevel = .Unavailable
    ∧ (checkAngleOfArrival
      ⟨2, 0, 5, 1/2, 1/2, 1/4, 1/2, 100, .UsePseudorange, false, true⟩
      ⟨[], 0, .Unavailable⟩ 0
      (some ⟨"A", [(1, ⟨100, true, .Assured⟩), (2, ⟨200, true, .Assured⟩)]⟩)
      [("B", ⟨⟨"B", [(1, ⟨100, true, .Assured⟩), (2, ⟨200, true, .Assured⟩)]⟩,
          ⟨0, false⟩⟩),
       ("C", ⟨⟨"C", []⟩, ⟨0, false⟩⟩)]).state.prnAssuranceLevels = []
    ∧ (checkAngleOfArrival
      ⟨2, 0, 5, 1/2, 1/2, 1/4, 1/2, 100, .UsePseudorange, false, true⟩
      ⟨[], 0, .Unavailable⟩ 0
      (some ⟨"A", [(1, ⟨100, true, .Assured⟩), (2, ⟨200, true, .Assured⟩)]⟩)
      [("B", ⟨⟨"B", [(1, ⟨100, true, .Assured⟩), (2, ⟨200, true, .Assured⟩)]⟩,
          ⟨0, false⟩⟩),
       ("C", ⟨⟨"C", []⟩, ⟨0, false⟩⟩)]).diag = none
    ∧ calculateAssuranceLevel
        ⟨2, 0, 5, 1/2, 1/2, 1/4, 1/2, 100, .UsePseudorange, false, true⟩
        (setPrnAssuranceLevels
          (checkAngleOfArrival
            ⟨2, 0, 5, 1/2, 1/2, 1/4, 1/2, 100, .UsePseudorange, false, true⟩
            ⟨[], 0, .Unavailable⟩ 0
            (some ⟨"A",
              [(1, ⟨100, true, .Assured⟩), (2, ⟨200, true, .Assured⟩)]⟩)
            [("B", ⟨⟨"B",
                [(1, ⟨100, true, .Assured⟩), (2, ⟨200, true, .Assured⟩)]⟩,
                ⟨0, false⟩⟩),
             ("C", ⟨⟨"C", []⟩, ⟨0, false⟩⟩)]).votes []) = .Unassured := by
  have hBA : (("B" : String) = "A") = False := by simp
  have hCA : (("C" : String) = "A") = False := by simp
  have e1 : (AssuranceLevel.Unassured = AssuranceLevel.Assured) = False := by
    simp
  have e2 : (AssuranceLevel.Unassured = AssuranceLevel.Unavailable) = False := by
    simp
  norm_num [checkAngleOfArrival, aoaLoop, nodeSkipped, seedVotes,
    buildSingleDiffMap, rangeGateOpen, nestedForLoopComparison, diffCounts,
    voteFor, classifyWithPercent, appendVote, mapInsert, mapGetD, mapFind,
    setPrnAssuranceLevels, calculateAssuranceLevel, levelCounts, levelMax,
    lmax, commitLevels, AssuranceLevel.value, hBA, hCA, e1, e2]

/-- Witness for the amended C5: a single (hence last) skipped remote
node leaves the state untouched, classifies nothing, and publishes no
diagnostics. -/
theorem c5_last_node_witness :
    ([("B", (⟨⟨"B", []⟩, ⟨0, false⟩⟩ : RemoteEntry))].getLast? =
      some ("B", (⟨⟨"B", []⟩, ⟨0, false⟩⟩ : RemoteEntry))) ∧
    (aoaLoop ⟨2, 0, 5, 1/2, 1/2, 1/4, 1/2, 100, .UsePseudorange, false, true⟩
      ⟨"A", [(1, ⟨100, true, .Assured⟩)]⟩
      [("B", ⟨⟨"B", []⟩, ⟨0, false⟩⟩)]
      ⟨[], 0, .Unavailable⟩ [] []).state = ⟨[], 0, .Unavailable⟩ ∧
    (aoaLoop ⟨2, 0, 5, 1/2, 1/2, 1/4, 1/2, 100, .UsePseudorange, false, true⟩
      ⟨"A", [(1, ⟨100, true, .Assured⟩)]⟩
      [("B", ⟨⟨"B", []⟩, ⟨0, false⟩⟩)]
      ⟨[], 0, .Unavailable⟩ [] []).classified = false ∧
    (aoaLoop ⟨2, 0, 5, 1/2, 1/2, 1/4, 1/2, 100, .UsePseudorange, false, true⟩
      ⟨"A", [(1, ⟨100, true, .Assured⟩)]⟩
      [("B", ⟨⟨"B", []⟩, ⟨0, false⟩⟩)]
      ⟨[], 0, .Unavailable⟩ [] []).diag = none :=
  ⟨rfl,
   (c5_last_node_gates_classification
      ⟨2, 0, 5, 1/2, 1/2, 1/4, 1/2, 100, .UsePseudorange, false, true⟩
      ⟨"A", [(1, ⟨100, true, .Assured⟩)]⟩
      [("B", ⟨⟨"B", []⟩, ⟨0, false⟩⟩)]
      ⟨[], 0, .Unavailable⟩ [] []
      ("B", ⟨⟨"B", []⟩, ⟨0, false⟩⟩) rfl).1 (by decide)⟩

/-! ### Claim C6 -/

/-- Helper: the max-velocity `updateBound` overload in its matching mode
replaces the bound by the propagated envelope and changes nothing else. -/
theorem updateBoundTime_false (cfg : PjConfig) (st : PjState) (t : ℚ)
    (h : cfg.useDistTraveled = false) :
    (updateBoundTime cfg st t).1 =
      { st with positionJumpBound := max cfg.minimumBound (cfg.maximumVelocity * (t - st.lastKnownGoodPositionTime)) } := by
  simp [updateBoundTime, h]

/-- Helper: the decision cascade never lowers the bound below the floor
it receives — the distance-to-last-good and unavailable branches keep it,
the estimated-PV branch replaces it with a `max` over the minimum. -/
theorem pjDecide_bound_floor (cfg : PjConfig) (st1 : PjState)
    (distLastGood dist covStd rcvrStd : ℚ)
    (h : cfg.minimumBound ≤ st1.positionJumpBound) :
    cfg.minimumBound ≤
      (pjDecide cfg st1 distLastGood dist covStd rcvrStd).state.positionJumpBound := by
  unfold pjDecide
  by_cases hA : cfg.useEstimatedPv = false ∧ st1.lastKnownGoodSet = true ∧
      st1.distanceTraveledReceived = true
  · rw [if_pos hA]
    simpa using h
  · rw [if_neg hA]
    by_cases hB : cfg.useEstimatedPv = true ∧ st1.currentEstPositionSet = true
    · rw [if_pos hB]
      simp [le_max_left]
    · rw [if_neg hB]
      simpa using h

/-- C6: in every bound-propagation mode and for every input — zero or
negative elapsed time, zero accumulated distance, any covariance — each
of the four operations that touches the position-jump bound (both
`updateBound` overloads, whether they update or reject a mismatched-mode
call, the estimated-PV recomputation inside `runCheck`, and the reset in
`setLastGoodPosition`) leaves the bound at least `minimumBound` and hence
nonnegative.  The two hypotheses are the configured nonnegativity of the
minimum bound and the spec invariant that the bound already satisfies the
floor (needed only on the paths that leave the bound untouched). -/
theorem c6_bound_floor (cfg : PjConfig) (st : PjState)
    (t distLastGood dist covStd rcvrStd : ℚ) (pos : GeodeticPosition)
    (hmin : 0 ≤ cfg.minimumBound)
    (hst : cfg.minimumBound ≤ st.positionJumpBound) :
    (cfg.minimumBound ≤ (updateBoundDist cfg st).1.positionJumpBound ∧
      0 ≤ (updateBoundDist cfg st).1.positionJumpBound)
    ∧ (cfg.minimumBound ≤ (updateBoundTime cfg st t).1.positionJumpBound ∧
      0 ≤ (updateBoundTime cfg st t).1.positionJumpBound)
    ∧ (cfg.minimumBound ≤
        (setLastGoodPosition cfg st t pos).positionJumpBound ∧
      0 ≤ (setLastGoodPosition cfg st t pos).positionJumpBound)
    ∧ (cfg.minimumBound ≤
        (runCheck cfg st distLastGood dist covStd rcvrStd).state.positionJumpBound ∧
      0 ≤ (runCheck cfg st distLastGood dist covStd rcvrStd).state.positionJumpBound) := by
  have h1 : cfg.minimumBound ≤ (updateBoundDist cfg st).1.positionJumpBound := by
    unfold updateBoundDist
    split_ifs <;> simp [le_max_left, hst]
  have h2 : cfg.minimumBound ≤ (updateBoundTime cfg st t).1.positionJumpBound := by
    unfold updateBoundTime
    split_ifs <;> simp [le_max_left, hst]
  have h3 : cfg.minimumBound ≤
      (setLastGoodPosition cfg st t pos).positionJumpBound := by
    unfold setLastGoodPosition
    split_ifs <;> simp [hst]
  have h4 : cfg.minimumBound ≤
      (runCheck cfg st distLastGood dist covStd rcvrStd).state.positionJumpBound := by
    simp only [runCheck]
    by_cases hmode : cfg.useDistTraveled = false ∧ cfg.useEstimatedPv = false
    · rw [if_pos hmode]
      apply pjDecide_bound_floor
      rw [updateBoundTime_false cfg _ _ hmode.1]
      simp [le_max_left]
    · rw [if_neg hmode]
      exact pjDecide_bound_floor cfg st _ _ _ _ hst
  exact ⟨⟨h1, le_trans hmin h1⟩, ⟨h2, le_trans hmin h2⟩,
    ⟨h3, le_trans hmin h3⟩, ⟨h4, le_trans hmin h4⟩⟩

/-- Witness for C6: platform mode, minimum bound 5, a state already at
the floor, and a negative elapsed time (update time 0 with last-good time
recorded later is exercised through `t = -3`). -/
theorem c6_bound_floor_witness :
    ((0 : ℚ) ≤ 5) ∧ ((5 : ℚ) ≤ 5) ∧
    (5 : ℚ) ≤ (updateBoundTime ⟨false, false, 5, 10, 2, false⟩
      ⟨5, 0, false, false, 0, ⟨0, 0, 0⟩, false, 0, 0, 0, 0, 0, ⟨0, 0, 0⟩,
        .Unavailable⟩ (-3)).1.positionJumpBound ∧
    (0 : ℚ) ≤ (updateBoundTime ⟨false, false, 5, 10, 2, false⟩
      ⟨5, 0, false, false, 0, ⟨0, 0, 0⟩, false, 0, 0, 0, 0, 0, ⟨0, 0, 0⟩,
        .Unavailable⟩ (-3)).1.positionJumpBound :=
  ⟨by norm_num, by norm_num,
   (c6_bound_floor ⟨false, false, 5, 10, 2, false⟩
      ⟨5, 0, false, false, 0, ⟨0, 0, 0⟩, false, 0, 0, 0, 0, 0, ⟨0, 0, 0⟩,
        .Unavailable⟩ (-3) 0 0 0 0 ⟨0, 0, 0⟩
      (by norm_num) (by norm_num)).2.1⟩

/-! ### Claim C7 -/

/-- C7: in estimated-PV mode with an estimated reference captured, the
horizontal offset is the North-East norm of the geodetic-to-NED
conversion (`dist` with `dist² = north² + east²`; the down component
plays no part), the bound is recomputed as
`max(minimumBound, stdDevMultiplier · covStd)`, the check succeeds, and
the level is `Inconsistent` when the offset exceeds the bound and the
receiver's horizontal standard deviation exceeds 30, `Unassured` when it
exceeds the bound with standard deviation at most 30, and `Assured`
otherwise — including an offset exactly equal to the bound. -/
theorem c7_estimated_pv_classification (cfg : PjConfig) (st : PjState)
    (north east distLastGood dist covStd rcvrStd : ℚ)
    (hest : cfg.useEstimatedPv = true)
    (hset : st.currentEstPositionSet = true)
    (hdist : 0 ≤ dist ∧ dist ^ 2 = north ^ 2 + east ^ 2)
    (hcov : 0 ≤ covStd ∧ covStd ^ 2 = st.estCovNN + st.estCovEE)
    (hrcvr : 0 ≤ rcvrStd ∧ rcvrStd ^ 2 = st.rcvrCovNN + st.rcvrCovEE) :
    (runCheck cfg st distLastGood dist covStd rcvrStd).retVal = true
    ∧ (runCheck cfg st distLastGood dist covStd rcvrStd).state.positionJumpBound =
        max cfg.minimumBound (cfg.posStdDevMultiplier * covStd)
    ∧ (max cfg.minimumBound (cfg.posStdDevMultiplier * covStd) < dist →
        30 < rcvrStd →
        (runCheck cfg st distLastGood dist covStd rcvrStd).state.assuranceLevel =
          .Inconsistent)
    ∧ (max cfg.minimumBound (cfg.posStdDevMultiplier * covStd) < dist →
        rcvrStd ≤ 30 →
        (runCheck cfg st distLastGood dist covStd rcvrStd).state.assuranceLevel =
          .Unassured)
    ∧ (dist ≤ max cfg.minimumBound (cfg.posStdDevMultiplier * covStd) →
        (runCheck cfg st distLastGood dist covStd rcvrStd).state.assuranceLevel =
          .Assured) := by
  have hrun : runCheck cfg st distLastGood dist covStd rcvrStd =
      pjDecide cfg st distLastGood dist covStd rcvrStd := by
    simp only [runCheck]
    rw [if_neg]
    rintro ⟨-, h2⟩
    rw [hest] at h2
    cases h2
  rw [hrun]
  simp only [pjDecide]
  rw [if_neg (by rintro ⟨he, -⟩; rw [hest] at he; cases he),
    if_pos ⟨hest, hset⟩]
  refine ⟨rfl, rfl, ?_, ?_, ?_⟩
  · intro h1 h2
    simp only [checkDistance]
    rw [if_pos (And.intro h1 h2)]
  · intro h1 h2
    simp only [checkDistance]
    rw [if_neg (fun hc => (not_lt.mpr h2) hc.2), if_pos h1]
  · intro h
    have hnj : ¬ (max cfg.minimumBound (cfg.posStdDevMultiplier * covStd) < dist) :=
      not_lt.mpr h
    simp only [checkDistance]
    rw [if_neg (fun hc => hnj hc.1), if_neg hnj]

/-- Witness for C7: minimum bound 5, multiplier 2, estimated covariance
diagonal 60 + 40 gives `covStd = 10` and bound `max(5, 20) = 20`; the
North-East offset (15, 20) gives `dist = 25 > 20`; receiver covariance
1000 + 225 gives `rcvrStd = 35 > 30`, so the level is `Inconsistent`. -/
theorem c7_estimated_pv_witness :
    (runCheck ⟨false, true, 5, 10, 2, true⟩
      ⟨5, 0, false, false, 0, ⟨0, 0, 0⟩, true, 60, 40, 0, 1000, 225,
        ⟨0, 0, 0⟩, .Unavailable⟩
      0 25 10 35).state.assuranceLevel = .Inconsistent :=
  (c7_estimated_pv_classification ⟨false, true, 5, 10, 2, true⟩
    ⟨5, 0, false, false, 0, ⟨0, 0, 0⟩, true, 60, 40, 0, 1000, 225,
      ⟨0, 0, 0⟩, .Unavailable⟩
    15 20 0 25 10 35 rfl rfl
    (by norm_num) (by norm_num) (by norm_num)).2.2.1
    (by rw [max_eq_right (by norm_num : (5 : ℚ) ≤ 2 * 10)]; norm_num)
    (by norm_num)

/-! ### Claim C8 -/

/-- Helper: with estimated-PV mode off and either no last-known-good
reference or no distance-traveled data, the decision cascade lands on
the unavailable branch. -/
theorem pjDecide_unavailable (cfg : PjConfig) (st1 : PjState)
    (distLastGood dist covStd rcvrStd : ℚ)
    (hep : cfg.useEstimatedPv = false)
    (h : st1.lastKnownGoodSet = false ∨ st1.distanceTraveledReceived = false) :
    pjDecide cfg st1 distLastGood dist covStd rcvrStd =
      { state := { st1 with assuranceLevel := .Unavailable }
        retVal := false
        published :=
          if cfg.publishDiagnostics then some ⟨none, none⟩ else none } := by
  have hA : ¬ (cfg.useEstimatedPv = false ∧ st1.lastKnownGoodSet = true ∧
      st1.distanceTraveledReceived = true) := by
    rintro ⟨-, h1, h2⟩
    rcases h with h3 | h3
    · rw [h3] at h1
      cases h1
    · rw [h3] at h2
      cases h2
  have hB : ¬ (cfg.useEstimatedPv = true ∧ st1.currentEstPositionSet = true) := by
    rintro ⟨he, -⟩
    rw [hep] at he
    cases he
  unfold pjDecide
  rw [if_neg hA, if_neg hB]

/-- C8: in platform mode with no last-known-good position, or in
distance-traveled mode with no last-known-good position or no
distance-traveled data received, `runCheck` sets the level to
`Unavailable`, publishes NaN bound and distance diagnostics exactly when
a sink is configured, and returns false — no jump decision is made.
(In platform mode the code itself marks distance-traveled data as
received before the decision, so only the missing reference reaches the
unavailable path there.) -/
theorem c8_unavailable_without_reference (cfg : PjConfig) (st : PjState)
    (distLastGood dist covStd rcvrStd : ℚ)
    (hep : cfg.useEstimatedPv = false)
    (h : st.lastKnownGoodSet = false ∨
      (cfg.useDistTraveled = true ∧ st.distanceTraveledReceived = false)) :
    (runCheck cfg st distLastGood dist covStd rcvrStd).retVal = false
    ∧ (runCheck cfg st distLastGood dist covStd rcvrStd).state.assuranceLevel =
        .Unavailable
    ∧ (cfg.publishDiagnostics = true →
        (runCheck cfg st distLastGood dist covStd rcvrStd).published =
          some ⟨none, none⟩)
    ∧ (cfg.publishDiagnostics = false →
        (runCheck cfg st distLastGood dist covStd rcvrStd).published = none) := by
  simp only [runCheck]
  by_cases hmode : cfg.useDistTraveled = false ∧ cfg.useEstimatedPv = false
  · rw [if_pos hmode, updateBoundTime_false cfg _ _ hmode.1]
    have hlg : st.lastKnownGoodSet = false := by
      rcases h with h1 | ⟨h2, -⟩
      · exact h1
      · rw [h2] at hmode
        cases hmode.1
    rw [pjDecide_unavailable _ _ _ _ _ _ hep (Or.inl (by simp [hlg]))]
    refine ⟨rfl, rfl, ?_, ?_⟩
    · intro hp
      simp [hp]
    · intro hp
      simp [hp]
  · rw [if_neg hmode]
    rw [pjDecide_unavailable _ _ _ _ _ _ hep
      (h.imp (fun x => x) (fun x => x.2))]
    refine ⟨rfl, rfl, ?_, ?_⟩
    · intro hp
      simp [hp]
    · intro hp
      simp [hp]

/-- Witness for C8: platform mode (neither distance-traveled nor
estimated-PV), no last-known-good position ever set, diagnostics sink
configured: the check fails, the level is `Unavailable`, and the NaN
diagnostics record is published. -/
theorem c8_unavailable_witness :
    (runCheck ⟨false, false, 5, 10, 2, true⟩
      ⟨5, 0, false, false, 0, ⟨0, 0, 0⟩, false, 0, 0, 0, 0, 0, ⟨0, 0, 0⟩,
        .Assured⟩ 0 0 0 0).retVal = false ∧
    (runCheck ⟨false, false, 5, 10, 2, true⟩
      ⟨5, 0, false, false, 0, ⟨0, 0, 0⟩, false, 0, 0, 0, 0, 0, ⟨0, 0, 0⟩,
        .Assured⟩ 0 0 0 0).state.assuranceLevel = .Unavailable ∧
    (runCheck ⟨false, false, 5, 10, 2, true⟩
      ⟨5, 0, false, false, 0, ⟨0, 0, 0⟩, false, 0, 0, 0, 0, 0, ⟨0, 0, 0⟩,
        .Assured⟩ 0 0 0 0).published = some ⟨none, none⟩ := by
  have h := c8_unavailable_without_reference ⟨false, false, 5, 10, 2, true⟩
    ⟨5, 0, false, false, 0, ⟨0, 0, 0⟩, false, 0, 0, 0, 0, 0, ⟨0, 0, 0⟩,
      .Assured⟩ 0 0 0 0 rfl (Or.inl rfl)
  exact ⟨h.1, h.2.1, h.2.2.1 rfl⟩

/-! ### Claim C9 -/

/-- C9: calling the distance-traveled `updateBound()` while
`useDistTraveled_` is false, or the time-propagation
`updateBound(updateTime)` while `useDistTraveled_` is true, logs an
error (the returned flag) and returns the state completely unchanged:
the bound and every other field keep their values. -/
theorem c9_mismatched_updateBound_noop (cfg : PjConfig) (st : PjState)
    (t : ℚ) :
    (cfg.useDistTraveled = false → updateBoundDist cfg st = (st, true))
    ∧ (cfg.useDistTraveled = true → updateBoundTime cfg st t = (st, true)) := by
  constructor
  · intro h
    simp [updateBoundDist, h]
  · intro h
    simp [updateBoundTime, h]

/-- Witness for C9: both mismatched calls on concrete configurations and
a concrete state return the state unchanged with the error flag set. -/
theorem c9_mismatched_updateBound_witness :
    updateBoundDist ⟨false, false, 5, 10, 2, false⟩
      ⟨7, 3, true, true, 1, ⟨0, 0, 0⟩, false, 0, 0, 2, 0, 0, ⟨0, 0, 0⟩,
        .Assured⟩ =
      (⟨7, 3, true, true, 1, ⟨0, 0, 0⟩, false, 0, 0, 2, 0, 0, ⟨0, 0, 0⟩,
        .Assured⟩, true) ∧
    updateBoundTime ⟨true, false, 5, 10, 2, false⟩
      ⟨7, 3, true, true, 1, ⟨0, 0, 0⟩, false, 0, 0, 2, 0, 0, ⟨0, 0, 0⟩,
        .Assured⟩ 9 =
      (⟨7, 3, true, true, 1, ⟨0, 0, 0⟩, false, 0, 0, 2, 0, 0, ⟨0, 0, 0⟩,
        .Assured⟩, true) :=
  ⟨(c9_mismatched_updateBound_noop ⟨false, false, 5, 10, 2, false⟩
      ⟨7, 3, true, true, 1, ⟨0, 0, 0⟩, false, 0, 0, 2, 0, 0, ⟨0, 0, 0⟩,
        .Assured⟩ 0).1 rfl,
   (c9_mismatched_updateBound_noop ⟨true, false, 5, 10, 2, false⟩
      ⟨7, 3, true, true, 1, ⟨0, 0, 0⟩, false, 0, 0, 2, 0, 0, ⟨0, 0, 0⟩,
        .Assured⟩ 9).2 rfl⟩

end PntIntegrity
